import Mathlib

/-!
Verification of the request-scoped telemetry pipeline of `understory-io/node-host`:
the enriching logger and log buffer (`src/host/logging.ts`), the event emitter
(`src/host/emitter.ts`) and the context wiring (`src/host/context.ts`).

The TypeScript classes are shallowly embedded as Lean structures holding the
instance fields, and the methods as pure state transformers.  Asynchronous
behaviour (promise chaining on the `#flusher` field, `setTimeout` timers,
the `setImmediate` transport probe) is made explicit: the chain of sends
queued on the flusher promise is a list of batches whose head is the send
currently in flight, a scheduler step delivers the head batch to the
transport (modelling the resolution of that send — promise chaining via
`.then` guarantees the next send only starts afterwards), and timers are
recorded with their id and absolute fire time.
-/

/-- JSON-like values appearing in enrichment maps and log records
(`Json` in `src/context.ts`), with `undefined` for JavaScript `undefined`
appearing as an object property value. -/
inductive JVal where
  | null
  | undefined
  | bool (b : Bool)
  | num (n : Int)
  | str (s : String)
  | arr (elems : List JVal)
  | obj (props : List (String × JVal))
deriving Repr

/-- An object's property list: property name to value, in insertion order. -/
abbrev JProps := List (String × JVal)

/-- JavaScript object spread `{...a, ...b}`: keys of `a` keep their position,
values overridden by `b` on collision, new keys of `b` appended. -/
def jsSpread (a b : JProps) : JProps :=
  (a.map fun p =>
    match b.find? (fun q => q.1 = p.1) with
    | some q => (p.1, q.2)
    | none => p) ++
  b.filter (fun q => ¬ a.any (fun p => p.1 = q.1))

/-- The `LogLevel` union type of `src/host/context.ts`. -/
inductive Lvl where
  | trace
  | debug
  | info
  | warning
  | error
  | fatal
deriving DecidableEq, Repr

/-- `['fatal', 'error', 'warning', 'info', 'debug', 'trace'].indexOf(level)`,
the numeric threshold computed in `makeLogger` (`src/host/logging.ts`).
Lower number = more severe. -/
def levelIndex : Lvl → Nat
  | .fatal => 0
  | .error => 1
  | .warning => 2
  | .info => 3
  | .debug => 4
  | .trace => 5

/-- The level's name as the `LogLevel` string of the source. -/
def levelName : Lvl → String
  | .trace => "trace"
  | .debug => "debug"
  | .info => "info"
  | .warning => "warning"
  | .error => "error"
  | .fatal => "fatal"

/-- The immutable value fields of class `EnrichingLogger`
(`src/host/logging.ts`): numeric minimum-severity threshold `#level` and the
two enrichment mappings.  The shared `#buffer` reference is not a field here;
instead each leveled method below returns the `collect` call it delegates to
the buffer (or `none` when the severity gate rejects the call). -/
structure EnrichingLogger where
  level : Nat
  reservedEnrichment : Option JProps := none
  customEnrichment : Option JProps := none
deriving Repr

/-- The argument tuple of a `LogBuffer.collect` invocation
(`collect(level, numericLogLevel, message, error, fields, reservedEnrichment,
customEnrichment)`). -/
structure CollectCall where
  level : String
  numericLogLevel : Nat
  message : String
  error : Option JVal
  fields : Option JProps
  reservedEnrichment : Option JProps
  customEnrichment : Option JProps
deriving Repr

/-- `EnrichingLogger.trace`: gate `if (this.#level < 5) return`, then
delegate to `collect('trace', 5, ...)`. -/
def EnrichingLogger.trace (lg : EnrichingLogger) (message : String)
    (error : Option JVal) (fields : Option JProps) : Option CollectCall :=
  if lg.level < 5 then none
  else some ⟨"trace", 5, message, error, fields, lg.reservedEnrichment, lg.customEnrichment⟩

/-- `EnrichingLogger.debug`: gate `if (this.#level < 4) return`, then
delegate to `collect('debug', 4, ...)`. -/
def EnrichingLogger.debug (lg : EnrichingLogger) (message : String)
    (error : Option JVal) (fields : Option JProps) : Option CollectCall :=
  if lg.level < 4 then none
  else some ⟨"debug", 4, message, error, fields, lg.reservedEnrichment, lg.customEnrichment⟩

/-- `EnrichingLogger.info`: gate `if (this.#level < 3) return`, then
delegate to `collect('debug', 3, ...)` — the source passes the string
`'debug'`, not `'info'`, as the level label. -/
def EnrichingLogger.info (lg : EnrichingLogger) (message : String)
    (error : Option JVal) (fields : Option JProps) : Option CollectCall :=
  if lg.level < 3 then none
  else some ⟨"debug", 3, message, error, fields, lg.reservedEnrichment, lg.customEnrichment⟩

/-- `EnrichingLogger.warn`: gate `if (this.#level < 2) return`, then
delegate to `collect('debug', 2, ...)` — the source passes the string
`'debug'`, not `'warning'`, as the level label. -/
def EnrichingLogger.warn (lg : EnrichingLogger) (message : String)
    (error : Option JVal) (fields : Option JProps) : Option CollectCall :=
  if lg.level < 2 then none
  else some ⟨"debug", 2, message, error, fields, lg.reservedEnrichment, lg.customEnrichment⟩

/-- `EnrichingLogger.error`: gate `if (this.#level < 1) return`, then
delegate to `collect('error', 1, ...)`. -/
def EnrichingLogger.error (lg : EnrichingLogger) (message : String)
    (error : Option JVal) (fields : Option JProps) : Option CollectCall :=
  if lg.level < 1 then none
  else some ⟨"error", 1, message, error, fields, lg.reservedEnrichment, lg.customEnrichment⟩

/-- `EnrichingLogger.fatal`: no gate, always delegates to
`collect('fatal', 0, ...)`. -/
def EnrichingLogger.fatal (lg : EnrichingLogger) (message : String)
    (error : Option JVal) (fields : Option JProps) : Option CollectCall :=
  some ⟨"fatal", 0, message, error, fields, lg.reservedEnrichment, lg.customEnrichment⟩

/-- Dispatch a leveled call on the method named by `l` (the six leveled
methods of the `Logger` facade). -/
def EnrichingLogger.logAt (lg : EnrichingLogger) (l : Lvl) (message : String)
    (error : Option JVal) (fields : Option JProps) : Option CollectCall :=
  match l with
  | .trace => lg.trace message error fields
  | .debug => lg.debug message error fields
  | .info => lg.info message error fields
  | .warning => lg.warn message error fields
  | .error => lg.error message error fields
  | .fatal => lg.fatal message error fields

/-- `EnrichingLogger.enrich`: new logger sharing the buffer, with custom
fields merged (new fields win). -/
def EnrichingLogger.enrich (lg : EnrichingLogger) (fields : JProps) : EnrichingLogger :=
  { lg with customEnrichment := some (jsSpread (lg.customEnrichment.getD []) fields) }

/-- `EnrichingLogger.enrichReserved`: new logger sharing the buffer, with
reserved fields merged (new fields win). -/
def EnrichingLogger.enrichReserved (lg : EnrichingLogger) (fields : JProps) : EnrichingLogger :=
  { lg with reservedEnrichment := some (jsSpread (lg.reservedEnrichment.getD []) fields) }

/-- The own enumerable properties of a Node `AbortSignal` object: none
(`aborted` and the listener methods live on the prototype).  Relevant because
`makeLogger` passes the abort signal as the `reservedEnrichment` constructor
argument (third positional argument of `new EnrichingLogger`). -/
def abortSignalOwnProps : JProps := []

/-- `makeLogger` (`src/host/logging.ts`): threshold
`['fatal','error','warning','info','debug','trace'].indexOf(minimumLogLevel)`
when a minimum level is configured, else `5`; the abort signal is passed in
the `reservedEnrichment` constructor position. -/
def makeLogger (minimumLogLevel : Option Lvl) : EnrichingLogger :=
  { level := match minimumLogLevel with
      | some l => levelIndex l
      | none => 5,
    reservedEnrichment := some abortSignalOwnProps,
    customEnrichment := none }

/-- The serialized log record, i.e. the object literal passed to
`JSON.stringify` in `LogBuffer.collect`: `{timestamp, level, message, error,
...reservedEnrichment, ...((fields || customEnrichment) && {fields: ...})}`. -/
structure LogRecord where
  timestamp : String
  level : String
  message : String
  error : Option JVal
  reservedProps : JProps
  fields : Option JProps
deriving Repr

/-- Build the record serialized by `LogBuffer.collect` from the arguments of
a `collect` call: the spread of the reserved enrichment lands directly in the
record, and the `fields` property is `{...customEnrichment, ...fields}` when
both exist, otherwise whichever exists, otherwise absent. -/
def collectRecord (c : CollectCall) (timestamp : String) : LogRecord :=
  { timestamp
    level := c.level
    message := c.message
    error := c.error
    reservedProps := c.reservedEnrichment.getD []
    fields :=
      match c.customEnrichment, c.fields with
      | some custom, some fs => some (jsSpread custom fs)
      | some custom, none => some custom
      | none, some fs => some fs
      | none, none => none }

/-- The `ClientInfo` snapshot of `src/host/context.ts`. -/
structure ClientInfo where
  operationId : Option String := none
  clientId : Option String := none
  clientIp : Option String := none
  clientPort : Option Nat := none
  userAgent : Option String := none
deriving DecidableEq, Repr

/-- A defined string as a `JVal`, `undefined` when absent — the value of an
object-literal property whose right-hand side may be `undefined`. -/
def jstr : Option String → JVal
  | some s => .str s
  | none => .undefined

/-- The reserved-field object `createContext` passes to
`logger.enrichReserved`: `{operationId, client: {id, ip, port, userAgent}}`. -/
def clientReservedProps (ci : ClientInfo) : JProps :=
  [("operationId", jstr ci.operationId),
   ("client", .obj
     [("id", jstr ci.clientId),
      ("ip", jstr ci.clientIp),
      ("port", match ci.clientPort with | some p => .num p | none => .undefined),
      ("userAgent", jstr ci.userAgent)])]

/-- The logger wiring of `createContext` (`src/host/context.ts`): build the
root logger with `makeLogger`, then evaluate
`logger.enrichReserved({operationId, client: {...}})` as a bare statement —
its returned (enriched) logger is discarded, exactly as in the source — and
expose the original `logger` on the context. -/
def createContextLog (ci : ClientInfo) (minimumLogLevel : Option Lvl) : EnrichingLogger :=
  let logger := makeLogger minimumLogLevel
  let _ := logger.enrichReserved (clientReservedProps ci)
  logger

/-- `Number.MAX_SAFE_INTEGER`. -/
def maxSafeInteger : Nat := 2 ^ 53 - 1

/-- Lexicographic (UTF-16 code unit) comparison of character lists, the
string ordering used by JavaScript's default `Array.prototype.sort`. -/
def strLtAux : List Char → List Char → Bool
  | _, [] => false
  | [], _ :: _ => true
  | a :: as, b :: bs => if a < b then true else if b < a then false else strLtAux as bs

/-- Lexicographic string comparison. -/
def strLt (a b : String) : Bool := strLtAux a.data b.data

/-- The comparison of JavaScript's default `Array.prototype.sort` on an array
of numbers and `undefined`s: `undefined` sorts after everything; numbers are
converted to strings (decimal for naturals) and compared lexicographically. -/
def jsRateLe : Option Nat → Option Nat → Bool
  | none, none => true
  | none, some _ => false
  | some _, none => true
  | some a, some b => ¬ strLt (Nat.repr b) (Nat.repr a)

/-- Sorted insertion with respect to `jsRateLe`. -/
def jsRateInsert (x : Option Nat) : List (Option Nat) → List (Option Nat)
  | [] => [x]
  | y :: ys => if jsRateLe x y then x :: y :: ys else y :: jsRateInsert x ys

/-- The result of `rates.sort()` under JavaScript's default comparator. -/
def jsRateSort (l : List (Option Nat)) : List (Option Nat) :=
  l.foldr jsRateInsert []

/-- The `publishRate` computed by the `LogMulticaster` constructor
(`src/host/context.ts`): `transports.map(t => t.publishRate).sort()[0] ??
Number.MAX_SAFE_INTEGER`, over the members' optional publish rates. -/
def LogMulticaster.publishRate (rates : List (Option Nat)) : Nat :=
  match (jsRateSort rates).head? with
  | some (some r) => r
  | some none => maxSafeInteger
  | none => maxSafeInteger

/-- The fields of a buffered `LogEntry` used by the buffer mechanics: the
level label and numeric severity passed to `collect`, the message, and the
serialized JSON record whose length feeds the running size.  (The record
itself is modelled by `collectRecord`; the buffer treats it as an opaque
string.) -/
structure LogEntryE where
  level : String
  numericLogLevel : Nat
  message : String
  json : String
deriving DecidableEq, Repr

/-- The state of class `LogBuffer` (`src/host/logging.ts`), with the
asynchronous machinery made explicit:

* `entries`, `size`: the `#entries` list and `#size` running total;
* `chain`: the batches queued on the `#flusher` promise chain, oldest first;
  the head is the send currently in flight, the rest start one by one as
  their predecessor resolves (`.then` chaining in `#startFlush`);
* `delivered`: batches whose `sendEntries` has resolved, in the order the
  transport observed them;
* `directSends`: fire-and-forget `sendEntries` calls issued in synchronous
  mode (no chaining in the source);
* `asyncTransport`: the `#asyncTransport` tri-state;
* `probePending`: a `setImmediate` probe callback is scheduled;
* `timers`: pending `setTimeout` timers as (id, absolute fire time);
* `nextTid`: next timer id;
* `timeoutHandle`: the `#timeout` field (id of the most recently armed timer);
* `flusherSet`: `#flusher !== undefined`;
* `handed`: ghost — every batch ever handed to the flusher chain, in order;
* `collected`: ghost — every entry ever collected, in order. -/
structure LogBuffer where
  entries : List LogEntryE := []
  size : Nat := 0
  chain : List (List LogEntryE) := []
  delivered : List (List LogEntryE) := []
  directSends : List (List LogEntryE) := []
  asyncTransport : Option Bool := none
  probePending : Bool := false
  timers : List (Nat × Nat) := []
  nextTid : Nat := 0
  timeoutHandle : Option Nat := none
  flusherSet : Bool := false
  handed : List (List LogEntryE) := []
  collected : List LogEntryE := []
deriving DecidableEq, Repr

/-- `LogBuffer.#startFlush(entries)`: chain the send of `entries` onto the
in-flight flusher promise (or start it directly when none exists); either
way the batch joins the back of the pending chain. -/
def LogBuffer.startFlush (s : LogBuffer) (batch : List LogEntryE) : LogBuffer :=
  { s with chain := s.chain ++ [batch], handed := s.handed ++ [batch], flusherSet := true }

/-- `LogBuffer.flush()`: no-op returning an immediately-resolved future when
`#entries` is empty; otherwise hand the detached entry list to `#startFlush`,
reset `#entries`/`#size`, cancel the pending `#timeout` timer, and return a
future that resolves when the whole flusher chain (`await this.#flusher`)
has resolved.  The second component is the list of batches the returned
future waits on. -/
def LogBuffer.flush (s : LogBuffer) : LogBuffer × List (List LogEntryE) :=
  if s.entries = [] then (s, [])
  else
    let s1 := s.startFlush s.entries
    let s2 := { s1 with entries := [], size := 0 }
    let s3 :=
      match s2.timeoutHandle with
      | some tid =>
          { s2 with timers := s2.timers.filter (fun p => p.1 ≠ tid), timeoutHandle := none }
      | none => s2
    (s3, s3.chain)

/-- `LogBuffer.collect`, after the record has been serialized (see
`collectRecord`): push the entry, add its JSON length to `#size`, then branch
on `#asyncTransport` — synchronous mode sends the whole list fire-and-forget
and resets; undetected mode switches to `true` and schedules the
`setImmediate` probe; batching mode flushes immediately when
`numericLogLevel < 2 || #entries.length > 8 || #size > 64000`, else arms a
new 2-second `setTimeout` stored in `#timeout` (the previous timer, if any,
is not cleared). -/
def LogBuffer.collect (s : LogBuffer) (now : Nat) (e : LogEntryE) : LogBuffer :=
  let s1 := { s with
    entries := s.entries ++ [e],
    size := s.size + e.json.length,
    collected := s.collected ++ [e] }
  match s1.asyncTransport with
  | some false =>
      { s1 with directSends := s1.directSends ++ [s1.entries], entries := [], size := 0 }
  | none =>
      { s1 with asyncTransport := some true, probePending := true }
  | some true =>
      if e.numericLogLevel < 2 ∨ 8 < s1.entries.length ∨ 64000 < s1.size then
        (s1.flush).1
      else
        { s1 with
          timers := s1.timers ++ [(s1.nextTid, now + 2000)],
          timeoutHandle := some s1.nextTid,
          nextTid := s1.nextTid + 1 }

/-- The `setImmediate` probe scheduled by the first `collect`: if a flusher
already exists, do nothing; otherwise call `sendEntries` on the current
entry list and reset it — when the transport returns a promise
(`transportAsync = true`) it becomes the flusher chain's first send, else
the buffer permanently switches to synchronous mode. -/
def LogBuffer.probe (s : LogBuffer) (transportAsync : Bool) : LogBuffer :=
  if ¬ s.probePending then s
  else if s.flusherSet then { s with probePending := false }
  else if transportAsync then
    { s with
      probePending := false,
      chain := s.chain ++ [s.entries],
      handed := s.handed ++ [s.entries],
      flusherSet := true,
      entries := [], size := 0 }
  else
    { s with
      probePending := false,
      directSends := s.directSends ++ [s.entries],
      entries := [], size := 0,
      asyncTransport := some false }

/-- A pending `setTimeout` callback fires: the timer leaves the pending set,
the callback runs `void this.flush()` (which also cancels the timer
currently referenced by `#timeout`) and clears `#timeout`. -/
def LogBuffer.timerFire (s : LogBuffer) (tid : Nat) : LogBuffer :=
  match s.timers.find? (fun p => p.1 = tid) with
  | none => s
  | some _ =>
      let s1 := { s with timers := s.timers.filter (fun p => p.1 ≠ tid) }
      let s2 := (s1.flush).1
      { s2 with timeoutHandle := none }

/-- The send at the head of the flusher chain resolves: the transport has
fully observed that batch, and the next chained send may start. -/
def LogBuffer.deliver (s : LogBuffer) : LogBuffer :=
  match s.chain with
  | [] => s
  | b :: rest => { s with chain := rest, delivered := s.delivered ++ [b] }

/-- One cooperative scheduling event on a `LogBuffer`: a `collect` call at
absolute time `now`, a `flush()` call, the resolution of the in-flight send,
the `setImmediate` probe running (with the transport's synchronous/async
answer), or a pending timer firing. -/
inductive BufOp where
  | collect (now : Nat) (e : LogEntryE)
  | flushCall
  | deliver
  | probe (transportAsync : Bool)
  | fire (tid : Nat)
deriving DecidableEq, Repr

/-- Apply one scheduling event. -/
def LogBuffer.step (s : LogBuffer) : BufOp → LogBuffer
  | .collect now e => s.collect now e
  | .flushCall => (s.flush).1
  | .deliver => s.deliver
  | .probe a => s.probe a
  | .fire tid => s.timerFire tid

/-- Run a sequence of scheduling events. -/
def LogBuffer.run (s : LogBuffer) (ops : List BufOp) : LogBuffer :=
  ops.foldl LogBuffer.step s

/-- The state of a freshly constructed `LogBuffer`. -/
def bufInit : LogBuffer := {}

/-- No event in the trace is the probe discovering a synchronous transport
(i.e. the transport is asynchronous, the regime in which the buffer batches
and chains flushes). -/
def noSyncProbe (ops : List BufOp) : Prop :=
  ∀ op ∈ ops, op ≠ BufOp.probe false

instance (ops : List BufOp) : Decidable (noSyncProbe ops) := by
  unfold noSyncProbe; infer_instance

/-- The `EventMetadata` of `src/host/context.ts`. -/
structure EventMetadata where
  topic : String
  type : String
  subject : String
  id : Option String := none
deriving DecidableEq, Repr

/-- `Omit<EventMetadata, 'topic'>`, the `meta` stored on a buffered event. -/
structure EventMetaBody where
  type : String
  subject : String
  id : Option String := none
deriving DecidableEq, Repr

/-- A `BufferedEvent` (`src/host/context.ts`): event time, metadata minus
topic, the client identity snapshot, and the optional serialized JSON body
(`JSON.stringify(data)`; absent when `data` is `undefined`).  The JSON body
is carried as the already-serialized string. -/
structure BufferedEvent where
  meta : EventMetaBody
  ids : ClientInfo
  eventTime : Nat
  json : Option String := none
deriving DecidableEq, Repr

/-- One flush round of the emitter: the detached `#emitted` per-topic map
(insertion-ordered association list); within a round all topics are sent in
parallel, across rounds sends are chained. -/
abbrev EmitRound := List (String × List BufferedEvent)

/-- The state of class `EventEmitter` (`src/host/emitter.ts`): the per-topic
`#emitted` map (insertion order preserved, as for JavaScript object string
keys), the `#size` running total of JSON body lengths, the live `#buffered`
count of not-yet-sent events, and the flush chain made explicit as for
`LogBuffer` (`chain` holds the rounds queued on `#flusher`, head in flight;
`delivered` the rounds whose sends have resolved). -/
structure EventEmitter where
  emitted : EmitRound := []
  size : Nat := 0
  buffered : Nat := 0
  chain : List EmitRound := []
  delivered : List EmitRound := []
  flusherSet : Bool := false
deriving DecidableEq, Repr

/-- Look up a topic's event list in the `#emitted` object. -/
def emitLookup (m : EmitRound) (topic : String) : Option (List BufferedEvent) :=
  (m.find? (fun p => p.1 = topic)).map (fun p => p.2)

/-- Update an existing topic's event list in place (JavaScript object
property update keeps key position). -/
def emitUpdate (m : EmitRound) (topic : String) (evs : List BufferedEvent) : EmitRound :=
  m.map (fun p => if p.1 = topic then (topic, evs) else p)

/-- The synchronous part of `EventEmitter.flush()` up to the `await`:
`#startFlush(#emitted)` chains the detached round onto the flusher, then
`#emitted` and `#size` are reset.  Note the round is chained even when it
is empty. -/
def EventEmitter.startFlush (s : EventEmitter) : EventEmitter :=
  { s with
    chain := s.chain ++ [s.emitted],
    flusherSet := true,
    emitted := [], size := 0 }

/-- `EventEmitter.flush()`: run the synchronous part and return, together
with the new state, the list of rounds the returned future waits on
(`await this.#flusher` resolves once every round in the chain has been
sent). -/
def EventEmitter.flush (s : EventEmitter) : EventEmitter × List EmitRound :=
  let s1 := s.startFlush
  (s1, s1.chain)

/-- The length contributed to `#size` by an optional JSON body
(`event.json?.length ?? 0`). -/
def jsonLen : Option String → Nat
  | none => 0
  | some j => j.length

/-- The arguments of one `emit` call: the time remaining until the deadline
when the call happens (`#deadline - Date.now()`, in milliseconds — may be
fractional or negative), the event metadata, the event time, and the
optional pre-serialized JSON body. -/
structure EmitCall where
  timeLeft : ℚ
  meta : EventMetadata
  eventTime : Nat
  data : Option String := none

/-- `EventEmitter.emit(meta, data?)` with transport publish rate `R`
(`transport.publishRate`) and identity snapshot `ids`:

* throws `'Event overflow.'` when `#buffered / publishRate > timeLeft`
  (the quotient is taken over the rationals; `timeLeft` is in milliseconds
  and no unit conversion is applied, exactly as in the source);
* otherwise builds the event (JSON body omitted when `data` is undefined)
  and appends it to its topic's list — creating a fresh singleton list
  without any threshold check when the topic is new, and otherwise checking
  `events.length > 64 || #size > 64000` after the push (with `#size` not yet
  including this event) and running `void this.flush()` when it holds;
* finally increments `#buffered` and adds the JSON body length to `#size`
  (after the flush, so a flushed 65th event's length is left in `#size`). -/
def EventEmitter.emit (R : ℚ) (ids : ClientInfo) (s : EventEmitter) (c : EmitCall) :
    Except Unit EventEmitter :=
  if (s.buffered : ℚ) / R > c.timeLeft then .error ()
  else
    let ev : BufferedEvent :=
      { meta := { type := c.meta.type, subject := c.meta.subject, id := c.meta.id },
        ids := ids, eventTime := c.eventTime, json := c.data }
    let s1 :=
      match emitLookup s.emitted c.meta.topic with
      | none => { s with emitted := s.emitted ++ [(c.meta.topic, [ev])] }
      | some evs =>
          let s' := { s with emitted := emitUpdate s.emitted c.meta.topic (evs ++ [ev]) }
          if 64 < evs.length + 1 ∨ 64000 < s.size then s'.startFlush else s'
    .ok { s1 with buffered := s1.buffered + 1, size := s1.size + jsonLen c.data }

/-- Run a sequence of `emit` calls, stopping at the first overflow. -/
def EventEmitter.emitSeq (R : ℚ) (ids : ClientInfo) (s : EventEmitter) :
    List EmitCall → Except Unit EventEmitter
  | [] => .ok s
  | c :: rest =>
      match EventEmitter.emit R ids s c with
      | .error e => .error e
      | .ok s1 => EventEmitter.emitSeq R ids s1 rest

/-- The state of a freshly constructed `EventEmitter`. -/
def emInit : EventEmitter := {}

/-- The event built by `emit` for a given call. -/
def mkEvent (ids : ClientInfo) (c : EmitCall) : BufferedEvent :=
  { meta := { type := c.meta.type, subject := c.meta.subject, id := c.meta.id },
    ids := ids, eventTime := c.eventTime, json := c.data }

attribute [local semireducible] Rat.inv Rat.mul

/-- C2: the fan-out (multicast) log transport's `publishRate` is NOT the
minimum of its members' rates: the constructor computes
`transports.map(t => t.publishRate).sort()[0]`, and JavaScript's default
`sort()` compares decimal string representations, so for member rates 9 and
10 the result is 10 ("10" sorts before "9" lexicographically) while the
minimum is 9. -/
theorem publishRate_of_nine_ten :
    LogMulticaster.publishRate [some 9, some 10] = 10 ∧ min 9 10 = 9 := by
  decide

/-- C4: the `info` and `warn` methods of `EnrichingLogger` pass the level
label `'debug'` (with the correct numeric severities 3 and 2) to `collect`,
so the serialized record's `level` field is `"debug"`, not `"info"` /
`"warning"` as the spec states. -/
theorem info_warn_record_level_is_debug :
    ((makeLogger (some .trace)).info "m" none none).map
        (fun c => (collectRecord c "ts").level) = some "debug" ∧
    ((makeLogger (some .trace)).warn "m" none none).map
        (fun c => (collectRecord c "ts").level) = some "debug" ∧
    "debug" ≠ "info" ∧ "debug" ≠ "warning" := by
  decide

/-- C3: `createContext` evaluates `logger.enrichReserved({operationId,
client: {...}})` as a bare statement and discards the enriched logger it
returns, exposing the original logger on the context; hence the reserved
properties of every record produced through the context's logger are those
of `makeLogger`'s base logger (the spread of the abort-signal object, i.e.
none), and in particular do not contain the non-empty ClientInfo field set
the source intended to attach. -/
theorem createContext_discards_reserved_enrichment :
    ∀ (ci : ClientInfo) (minimumLogLevel : Option Lvl) (m : String),
      createContextLog ci minimumLogLevel = makeLogger minimumLogLevel ∧
      ((createContextLog ci minimumLogLevel).fatal m none none).map
        (fun c => (collectRecord c "ts").reservedProps) = some [] ∧
      clientReservedProps ci ≠ [] := by
  intro ci minimumLogLevel m
  refine ⟨rfl, rfl, ?_⟩
  simp [clientReservedProps]

/-- C5: a leveled call on an `EnrichingLogger` delegates to the buffer's
`collect` exactly when the method's severity index (distance from fatal:
trace=5 … fatal=0) is at most the logger's numeric threshold — i.e. the
call's level is at least as severe as the configured minimum in the order
trace < debug < info < warning < error < fatal; `makeLogger` maps a
configured minimum level to exactly its index, and `fatal` calls always
delegate.  A rejected call returns `none`: no `collect` arguments are built,
so nothing is serialized. -/
theorem leveled_gate_iff :
    (∀ (lg : EnrichingLogger) (l : Lvl) (m : String) (e : Option JVal) (f : Option JProps),
        (lg.logAt l m e f).isSome = true ↔ levelIndex l ≤ lg.level) ∧
    (∀ t : Lvl, (makeLogger (some t)).level = levelIndex t) ∧
    (∀ (lg : EnrichingLogger) (m : String) (e : Option JVal) (f : Option JProps),
        (lg.fatal m e f).isSome = true) := by
  refine ⟨?_, ?_, ?_⟩
  · intro lg l m e f
    cases l <;>
      simp only [EnrichingLogger.logAt, EnrichingLogger.trace, EnrichingLogger.debug,
        EnrichingLogger.info, EnrichingLogger.warn, EnrichingLogger.error,
        EnrichingLogger.fatal, levelIndex] <;>
      first
      | (split_ifs with h <;> simp <;> omega)
      | simp
  · intro t; rfl
  · intro lg m e f; rfl

/-- C1 (amended): `emit` raises the overflow error exactly when
`#buffered / publishRate` exceeds the raw milliseconds remaining, i.e. when
the pending count exceeds `R * D` with `D` in milliseconds — the source
performs no millisecond-to-second conversion, so the threshold is 1000×
the spec's `R * D / 1000`. -/
theorem emit_overflow_iff (s : EventEmitter) (R : ℚ) (ids : ClientInfo) (c : EmitCall)
    (hR : 0 < R) :
    EventEmitter.emit R ids s c = .error () ↔ R * c.timeLeft < (s.buffered : ℚ) := by
  rw [EventEmitter.emit]
  split_ifs with h
  · simp only [true_iff]
    have h1 : c.timeLeft < (s.buffered : ℚ) / R := h
    rw [lt_div_iff₀ hR] at h1
    linarith [h1]
  · simp only [reduceCtorEq, false_iff, not_lt]
    have h1 : (s.buffered : ℚ) / R ≤ c.timeLeft := not_lt.mp h
    rw [div_le_iff₀ hR] at h1
    linarith [h1]

/-- Witness for C1: with `publishRate = 1`, 2 ms remaining and 3 pending
events, `emit` raises the overflow error (1 * 2 < 3). -/
theorem emit_overflow_iff_witness :
    (0 : ℚ) < 1 ∧
    (EventEmitter.emit 1 {} { buffered := 3 }
        { timeLeft := 2, meta := { topic := "t", type := "ty", subject := "s" }, eventTime := 0 }
      = .error () ↔ (1 : ℚ) * 2 < ((3 : Nat) : ℚ)) :=
  ⟨by norm_num,
   emit_overflow_iff { buffered := 3 }
     1 {}
     { timeLeft := 2, meta := { topic := "t", type := "ty", subject := "s" }, eventTime := 0 }
     (by norm_num)⟩

/-- The four emit calls of the C1 counterexample: three with ample time to
fill the backlog, then one with `publishRate = 1000` events/sec and 2 ms
remaining while 3 events are pending. -/
def c1cexCalls : List EmitCall :=
  [{ timeLeft := 1000000, meta := { topic := "t", type := "ty", subject := "s" }, eventTime := 0 },
   { timeLeft := 1000000, meta := { topic := "t", type := "ty", subject := "s" }, eventTime := 0 },
   { timeLeft := 1000000, meta := { topic := "t", type := "ty", subject := "s" }, eventTime := 0 },
   { timeLeft := 2, meta := { topic := "t", type := "ty", subject := "s" }, eventTime := 0 }]

/-- Counterexample to C1 as stated: with `R = 1000` events/sec and `D = 2` ms
remaining, the pending count 3 exceeds `R * D / 1000 = 2`, yet the fourth
`emit` does not raise the overflow error (the source compares
`3 / 1000 > 2` and admits the event). -/
theorem emit_overflow_units_cex :
    (EventEmitter.emitSeq 1000 {} emInit c1cexCalls).isOk = true ∧
    (1000 : ℚ) * 2 / 1000 < 3 := by
  constructor
  · decide
  · norm_num

/-- C10: `LogBuffer.flush()` returns straight away when `#entries` is empty
(`if (this.#entries.length === 0) return`): the state is untouched and the
returned future awaits nothing — in particular it is not chained onto any
in-flight send, so awaiting it does not guarantee that previously detached
batches have reached the transport. -/
theorem logBuffer_flush_empty_returns_immediately (s : LogBuffer) (h : s.entries = []) :
    LogBuffer.flush s = (s, []) := by
  rw [LogBuffer.flush, if_pos h]

/-- A small log entry used in concrete buffer runs. -/
def entA : LogEntryE := { level := "info", numericLogLevel := 3, message := "a", json := "ja" }

/-- A second small log entry. -/
def entB : LogEntryE := { level := "info", numericLogLevel := 3, message := "b", json := "jb" }

/-- A fatal log entry (numeric severity 0). -/
def entFatal : LogEntryE := { level := "fatal", numericLogLevel := 0, message := "f", json := "jf" }

/-- A buffer with an in-flight send and no pending entries: one entry was
collected, then the `setImmediate` probe handed it to an asynchronous
transport whose send has not yet resolved. -/
def c10buffer : LogBuffer := LogBuffer.run bufInit [.collect 0 entA, .probe true]

/-- Witness for C10: on a buffer whose chain still holds an undelivered
batch but whose entry list is empty, `flush()` leaves the state unchanged
and its future waits on nothing. -/
theorem logBuffer_flush_empty_returns_immediately_witness :
    c10buffer.entries = [] ∧ c10buffer.chain ≠ [] ∧ c10buffer.delivered = [] ∧
    LogBuffer.flush c10buffer = (c10buffer, []) :=
  ⟨by decide, by decide, by decide,
   logBuffer_flush_empty_returns_immediately c10buffer (by decide)⟩

/-- C7 (amended): `flush()` on a `LogBuffer` with no pending entries is a
no-op returning an immediately-resolving future.  `flush()` on an
`EventEmitter` with no pending events always chains an empty flush round
onto the flusher; when no earlier flush is in flight, the returned future
waits only on that empty round (it resolves immediately and, the round
having no topics, `sendEvents` is never invoked, so the transport is
untouched) — but when an earlier flush is still in flight the future also
waits on those sends (see the counterexample). -/
theorem flush_empty_is_noop :
    (∀ s : LogBuffer, s.entries = [] → LogBuffer.flush s = (s, [])) ∧
    (∀ s : EventEmitter, s.emitted = [] → s.chain = [] →
        (EventEmitter.flush s).2 = [[]] ∧
        (EventEmitter.flush s).1.delivered = s.delivered ∧
        (EventEmitter.flush s).1.emitted = [] ∧
        (EventEmitter.flush s).1.chain = [[]]) := by
  constructor
  · intro s h
    rw [LogBuffer.flush, if_pos h]
  · intro s h1 h2
    refine ⟨?_, rfl, ?_, ?_⟩ <;>
      simp [EventEmitter.flush, EventEmitter.startFlush, h1, h2]

/-- Witness for C7: on a fresh emitter — no pending events, nothing in
flight — `flush()` waits only on one empty round and touches nothing; and
the log-buffer half applied to a fresh buffer. -/
theorem flush_empty_is_noop_witness :
    (bufInit.entries = [] ∧ LogBuffer.flush bufInit = (bufInit, [])) ∧
    (emInit.emitted = [] ∧ emInit.chain = [] ∧
      (EventEmitter.flush emInit).2 = [[]] ∧
      (EventEmitter.flush emInit).1.delivered = emInit.delivered ∧
      (EventEmitter.flush emInit).1.emitted = [] ∧
      (EventEmitter.flush emInit).1.chain = [[]]) :=
  ⟨⟨rfl, flush_empty_is_noop.1 bufInit rfl⟩,
   ⟨rfl, rfl, flush_empty_is_noop.2 emInit rfl rfl⟩⟩

/-- An emitter with one send in flight and an empty event buffer: one event
was emitted, then `flush()` detached it; its `sendEvents` has not resolved. -/
def c7emitter : EventEmitter :=
  match EventEmitter.emit 1000 {}
      emInit { timeLeft := 1000, meta := { topic := "t", type := "ty", subject := "s" }, eventTime := 0 } with
  | .ok s => (EventEmitter.flush s).1
  | .error _ => emInit

/-- Counterexample to C7 as stated: `flush()` on an `EventEmitter` with no
pending events is not always an immediately-resolving no-op — with an
earlier flush still in flight, the returned future waits on a non-empty
round (the in-flight send), so it does not resolve immediately. -/
theorem emitter_flush_empty_waits_on_inflight :
    c7emitter.emitted = [] ∧
    ((EventEmitter.flush c7emitter).2.all (fun r => r.isEmpty)) = false := by
  constructor <;> decide


/-- The ordering invariant of the log-buffer flush chain: as long as the
transport has not been detected synchronous, the batches the transport has
observed (`delivered`) followed by the batches still queued on the flusher
chain equal, in order, every batch ever handed to the chain; and those
batches' entries followed by the current entry list are exactly the
collected entries, in collection order. -/
def bufChainInv (s : LogBuffer) : Prop :=
  s.asyncTransport ≠ some false ∧
  s.delivered ++ s.chain = s.handed ∧
  s.handed.flatten ++ s.entries = s.collected

theorem bufChainInv_flush (s : LogBuffer) (h : bufChainInv s) :
    bufChainInv (LogBuffer.flush s).1 := by
  obtain ⟨hm, hd, he⟩ := h
  rw [LogBuffer.flush]
  split_ifs with hentries
  · exact ⟨hm, hd, he⟩
  · refine ⟨?_, ?_, ?_⟩ <;>
    · cases htid : s.timeoutHandle <;>
        simp [LogBuffer.startFlush, htid, hm, hd, ← List.append_assoc, ← he]

theorem bufChainInv_collect (s : LogBuffer) (now : Nat) (e : LogEntryE)
    (h : bufChainInv s) : bufChainInv (s.collect now e) := by
  obtain ⟨hm, hd, he⟩ := h
  unfold LogBuffer.collect
  cases hA : s.asyncTransport with
  | none =>
      refine ⟨?_, ?_, ?_⟩ <;> simp [hA, hd, ← List.append_assoc, ← he]
  | some b =>
      cases b with
      | false => exact absurd hA hm
      | true =>
          simp only [hA]
          split_ifs with hcond
          · apply bufChainInv_flush
            refine ⟨?_, ?_, ?_⟩ <;> simp [hA, hd, ← List.append_assoc, ← he]
          · refine ⟨?_, ?_, ?_⟩ <;> simp [hA, hd, ← List.append_assoc, ← he]

theorem bufChainInv_step (s : LogBuffer) (op : BufOp) (hop : op ≠ BufOp.probe false)
    (h : bufChainInv s) : bufChainInv (s.step op) := by
  obtain ⟨hm, hd, he⟩ := h
  cases op with
  | collect now e => exact bufChainInv_collect s now e ⟨hm, hd, he⟩
  | flushCall => exact bufChainInv_flush s ⟨hm, hd, he⟩
  | deliver =>
      simp only [LogBuffer.step, LogBuffer.deliver]
      cases hc : s.chain with
      | nil => exact ⟨hm, hd, he⟩
      | cons b rest =>
          refine ⟨by simpa using hm, ?_, by simpa using he⟩
          simp only
          rw [List.append_assoc]
          simpa [hc] using hd
  | probe a =>
      cases a with
      | false => exact absurd rfl hop
      | true =>
          simp only [LogBuffer.step]
          unfold LogBuffer.probe
          split_ifs with h1 h2 h3 <;>
            first
            | exact ⟨hm, hd, he⟩
            | exact absurd rfl h3
            | (refine ⟨?_, ?_, ?_⟩ <;> simp [hm, hd, ← List.append_assoc, ← he])
  | fire tid =>
      simp only [LogBuffer.step]
      unfold LogBuffer.timerFire
      cases hf : s.timers.find? (fun p => p.1 = tid) with
      | none => exact ⟨hm, hd, he⟩
      | some _ =>
          simp only
          have h1 : bufChainInv { s with timers := s.timers.filter (fun p => p.1 ≠ tid) } :=
            ⟨by simpa using hm, by simpa using hd, by simpa using he⟩
          have h2 := bufChainInv_flush _ h1
          exact ⟨by simpa using h2.1, by simpa using h2.2.1, by simpa using h2.2.2⟩

theorem bufChainInv_run (ops : List BufOp) :
    ∀ s : LogBuffer, bufChainInv s → noSyncProbe ops → bufChainInv (LogBuffer.run s ops) := by
  induction ops with
  | nil => intro s h _; exact h
  | cons op rest ih =>
      intro s h hops
      have hop : op ≠ BufOp.probe false := hops op (by simp)
      have hrest : noSyncProbe rest := fun o ho => hops o (by simp [ho])
      exact ih (s.step op) (bufChainInv_step s op hop h) hrest

/-- C6: for every schedule of collects, flushes, probe and timer events and
send resolutions on a fresh `LogBuffer` (with an asynchronous transport, the
regime in which flushes batch and chain), the batches the transport has
observed followed by the batches still queued on the flusher chain are
exactly the batches handed to the chain, in hand-over order, and their
entries followed by the pending entry list are exactly the collected entries
in collection order.  Since a chained send starts only when its predecessor
has resolved (`.then` chaining in `#startFlush`), the transport observes
batch `k` fully before batch `k+1` begins and never processes two batches of
the same buffer concurrently. -/
theorem flush_batches_ordered (ops : List BufOp) (hops : noSyncProbe ops) :
    (LogBuffer.run bufInit ops).delivered ++ (LogBuffer.run bufInit ops).chain
        = (LogBuffer.run bufInit ops).handed ∧
    ((LogBuffer.run bufInit ops).handed).flatten ++ (LogBuffer.run bufInit ops).entries
        = (LogBuffer.run bufInit ops).collected := by
  have h := bufChainInv_run ops bufInit ⟨by simp [bufInit], rfl, rfl⟩ hops
  exact ⟨h.2.1, h.2.2⟩

/-- Witness for C6: a concrete schedule — a collect, the probe finding an
asynchronous transport, a severity-triggered flush and two send
resolutions — on which the delivered batches, chain, hand-over record and
collected entries line up as the theorem states. -/
theorem flush_batches_ordered_witness :
    noSyncProbe [.collect 0 entA, .probe true, .collect 5 entFatal, .deliver, .deliver] ∧
    ((LogBuffer.run bufInit [.collect 0 entA, .probe true, .collect 5 entFatal, .deliver, .deliver]).delivered
        ++ (LogBuffer.run bufInit [.collect 0 entA, .probe true, .collect 5 entFatal, .deliver, .deliver]).chain
        = (LogBuffer.run bufInit [.collect 0 entA, .probe true, .collect 5 entFatal, .deliver, .deliver]).handed ∧
      ((LogBuffer.run bufInit [.collect 0 entA, .probe true, .collect 5 entFatal, .deliver, .deliver]).handed).flatten
        ++ (LogBuffer.run bufInit [.collect 0 entA, .probe true, .collect 5 entFatal, .deliver, .deliver]).entries
        = (LogBuffer.run bufInit [.collect 0 entA, .probe true, .collect 5 entFatal, .deliver, .deliver]).collected) :=
  ⟨by decide, flush_batches_ordered _ (by decide)⟩

/-- The timers armed by a sequence of sub-threshold collects: one fresh
2-second timer per collect, ids consecutive from `base`, fire time
2000 ms after the collect's time. -/
def armedTimers (base : Nat) : List (Nat × LogEntryE) → List (Nat × Nat)
  | [] => []
  | (now, _) :: rest => (base, now + 2000) :: armedTimers (base + 1) rest

theorem collect_subthreshold_trace (tr : List (Nat × LogEntryE)) :
    ∀ s : LogBuffer, s.asyncTransport = some true →
      (∀ p ∈ tr, 2 ≤ p.2.numericLogLevel) →
      s.entries.length + tr.length ≤ 8 →
      s.size + (tr.map (fun p => p.2.json.length)).sum ≤ 64000 →
      LogBuffer.run s (tr.map (fun p => BufOp.collect p.1 p.2)) =
        { s with
          entries := s.entries ++ tr.map (fun p => p.2),
          size := s.size + (tr.map (fun p => p.2.json.length)).sum,
          collected := s.collected ++ tr.map (fun p => p.2),
          timers := s.timers ++ armedTimers s.nextTid tr,
          nextTid := s.nextTid + tr.length,
          timeoutHandle := if tr.isEmpty then s.timeoutHandle else
            some (s.nextTid + tr.length - 1) } := by
  induction tr with
  | nil =>
      intro s _ _ _ _
      simp [LogBuffer.run, armedTimers]
  | cons p rest ih =>
      obtain ⟨now, e⟩ := p
      intro s hmode hsev hcount hsize
      simp only [List.length_cons] at hcount
      simp only [List.map_cons, List.sum_cons] at hsize
      have hstep : s.collect now e =
          { s with
            entries := s.entries ++ [e],
            size := s.size + e.json.length,
            collected := s.collected ++ [e],
            timers := s.timers ++ [(s.nextTid, now + 2000)],
            timeoutHandle := some s.nextTid,
            nextTid := s.nextTid + 1 } := by
        unfold LogBuffer.collect
        simp only [hmode]
        rw [if_neg]
        push_neg
        refine ⟨hsev (now, e) (by simp), ?_, ?_⟩
        · show (s.entries ++ [e]).length ≤ 8
          simp only [List.length_append, List.length_cons, List.length_nil]
          omega
        · show s.size + e.json.length ≤ 64000
          omega
      have hrun : LogBuffer.run s (((now, e) :: rest).map (fun p => BufOp.collect p.1 p.2)) =
          LogBuffer.run (s.collect now e) (rest.map (fun p => BufOp.collect p.1 p.2)) := rfl
      rw [hrun, hstep, ih]
      · simp only [LogBuffer.mk.injEq]
        refine ⟨?_, ?_, trivial, trivial, trivial, trivial, trivial, ?_, ?_, ?_, trivial,
          trivial, ?_⟩
        · simp
        · show s.size + e.json.length + (rest.map (fun p => p.2.json.length)).sum =
            s.size + ((((now, e) :: rest).map (fun p => p.2.json.length)).sum)
          simp only [List.map_cons, List.sum_cons]
          omega
        · show (s.timers ++ [(s.nextTid, now + 2000)]) ++ armedTimers (s.nextTid + 1) rest =
            s.timers ++ armedTimers s.nextTid ((now, e) :: rest)
          simp [armedTimers]
        · show s.nextTid + 1 + rest.length = s.nextTid + ((now, e) :: rest).length
          simp only [List.length_cons]
          omega
        · cases rest with
          | nil => simp [armedTimers]
          | cons q qs =>
              simp only [List.isEmpty_cons, Bool.false_eq_true, if_false, List.length_cons,
                Option.some.injEq]
              omega
        · simp
      · exact hmode
      · exact fun q hq => hsev q (List.mem_cons_of_mem _ hq)
      · show (s.entries ++ [e]).length + rest.length ≤ 8
        simp only [List.length_append, List.length_cons, List.length_nil]
        omega
      · show s.size + e.json.length + (rest.map (fun p => p.2.json.length)).sum ≤ 64000
        omega

/-- C8 (amended): in batching mode, a `collect` call triggers an immediate
flush if and only if the entry's numeric severity is ≤ 1, the buffered entry
count after the push exceeds 8, or the cumulative serialized size exceeds
64,000 bytes; a sub-threshold collect instead arms an additional 2-second
idle timer — it does NOT cancel the previously armed timer, it only
overwrites the `#timeout` handle — so after a run of sub-threshold collects
one pending timer per collect exists, no flush has occurred, and the
earliest pending timer (2 s after the first sub-threshold collect, not the
last) is the one that will fire first. -/
theorem collect_flush_iff_and_timer_arming :
    (∀ (s : LogBuffer) (now : Nat) (e : LogEntryE), s.asyncTransport = some true →
      ((e.numericLogLevel < 2 ∨ 8 < s.entries.length + 1 ∨ 64000 < s.size + e.json.length) →
          (s.collect now e).handed = s.handed ++ [s.entries ++ [e]] ∧
          (s.collect now e).entries = []) ∧
      (¬(e.numericLogLevel < 2 ∨ 8 < s.entries.length + 1 ∨ 64000 < s.size + e.json.length) →
          (s.collect now e).handed = s.handed ∧
          (s.collect now e).chain = s.chain ∧
          (s.collect now e).timers = s.timers ++ [(s.nextTid, now + 2000)] ∧
          (s.collect now e).timeoutHandle = some s.nextTid ∧
          (s.collect now e).entries = s.entries ++ [e])) ∧
    (∀ (tr : List (Nat × LogEntryE)) (s : LogBuffer), s.asyncTransport = some true →
      s.entries = [] → s.size = 0 →
      (∀ p ∈ tr, 2 ≤ p.2.numericLogLevel) → tr.length ≤ 8 →
      (tr.map (fun p => p.2.json.length)).sum ≤ 64000 →
      (LogBuffer.run s (tr.map (fun p => BufOp.collect p.1 p.2))).handed = s.handed ∧
      (LogBuffer.run s (tr.map (fun p => BufOp.collect p.1 p.2))).chain = s.chain ∧
      (LogBuffer.run s (tr.map (fun p => BufOp.collect p.1 p.2))).timers
        = s.timers ++ armedTimers s.nextTid tr) := by
  constructor
  · intro s now e hmode
    constructor
    · intro hcond
      unfold LogBuffer.collect
      simp only [hmode]
      rw [if_pos (by simpa [List.length_append] using hcond)]
      rw [LogBuffer.flush, if_neg (by simp)]
      cases htid : s.timeoutHandle <;>
        simp [LogBuffer.startFlush, htid]
    · intro hcond
      unfold LogBuffer.collect
      simp only [hmode]
      rw [if_neg (by simpa [List.length_append] using hcond)]
      simp
  · intro tr s hmode hentries hsize hsev hcount hsum
    rw [collect_subthreshold_trace tr s hmode hsev (by simp [hentries]; omega)
      (by simp [hsize]; omega)]
    simp

/-- Witness for C8: on a reachable batching-mode buffer, a fatal entry
(severity 0) triggers the immediate flush, and a two-collect sub-threshold
trace leaves no flush and arms one pending timer per collect. -/
theorem collect_flush_iff_and_timer_arming_witness :
    (c10buffer.asyncTransport = some true ∧
      entFatal.numericLogLevel < 2 ∧
      ((c10buffer.collect 7 entFatal).handed
          = c10buffer.handed ++ [c10buffer.entries ++ [entFatal]] ∧
        (c10buffer.collect 7 entFatal).entries = [])) ∧
    (c10buffer.asyncTransport = some true ∧ c10buffer.entries = [] ∧ c10buffer.size = 0 ∧
      ((LogBuffer.run c10buffer
            ([(10, entA), (1010, entB)].map (fun p => BufOp.collect p.1 p.2))).timers
          = c10buffer.timers ++ armedTimers c10buffer.nextTid [(10, entA), (1010, entB)])) :=
  ⟨⟨by decide, by decide,
     (collect_flush_iff_and_timer_arming.1 c10buffer 7 entFatal (by decide)).1
       (Or.inl (by decide))⟩,
   ⟨by decide, by decide, by decide,
     (collect_flush_iff_and_timer_arming.2 [(10, entA), (1010, entB)] c10buffer
         (by decide) (by decide) (by decide) (by decide) (by decide) (by decide)).2.2⟩⟩

/-- A reachable schedule: one entry probes an asynchronous transport and is
delivered, then two sub-threshold collects arrive at times 10 and 1010. -/
def c8cexOps : List BufOp :=
  [.collect 0 entA, .probe true, .deliver, .collect 10 entA, .collect 1010 entB]

/-- Counterexample to C8 as stated: after two sub-threshold collects at
times 10 and 1010 there are TWO pending idle timers — (id 0, fires 2010)
armed by the first collect and (id 1, fires 3010) armed by the second — not
a single re-armed timer; and when the earliest fires (2010, i.e. 2 s after
the FIRST sub-threshold collect, 1 s after the second), the batch is
flushed, earlier than the re-armed reading (3010) would allow. -/
theorem idle_timer_not_rearmed :
    (LogBuffer.run bufInit c8cexOps).timers = [(0, 2010), (1, 3010)] ∧
    (LogBuffer.run bufInit (c8cexOps ++ [.fire 0])).handed = [[entA], [entA, entB]] := by
  constructor <;> decide

theorem emitSeq_append (R : ℚ) (ids : ClientInfo) (xs ys : List EmitCall) :
    ∀ s : EventEmitter, EventEmitter.emitSeq R ids s (xs ++ ys) =
      match EventEmitter.emitSeq R ids s xs with
      | .error e => .error e
      | .ok s1 => EventEmitter.emitSeq R ids s1 ys := by
  induction xs with
  | nil => intro s; rfl
  | cons c rest ih =>
      intro s
      simp only [List.cons_append, EventEmitter.emitSeq]
      cases EventEmitter.emit R ids s c with
      | error e => rfl
      | ok s1 => exact ih s1

theorem jsonLenSum_mono (f : Nat → EmitCall) {k n : Nat} (h : k ≤ n) :
    ((List.range k).map (fun i => jsonLen (f i).data)).sum ≤
      ((List.range n).map (fun i => jsonLen (f i).data)).sum := by
  induction n with
  | zero => simp [Nat.le_zero.mp h]
  | succ n ihn =>
      rcases Nat.lt_or_ge k (n + 1) with h1 | h1
      · calc ((List.range k).map (fun i => jsonLen (f i).data)).sum
            ≤ ((List.range n).map (fun i => jsonLen (f i).data)).sum :=
              ihn (Nat.lt_succ_iff.mp h1)
          _ ≤ ((List.range (n + 1)).map (fun i => jsonLen (f i).data)).sum := by
              rw [List.range_succ]; simp
      · have : k = n + 1 := le_antisymm h h1
        subst this
        exact le_rfl

theorem emit_step_new (R : ℚ) (ids : ClientInfo) (s : EventEmitter) (c : EmitCall)
    (hemitted : s.emitted = [])
    (hov : (s.buffered : ℚ) / R ≤ c.timeLeft) :
    EventEmitter.emit R ids s c =
      .ok { s with emitted := [(c.meta.topic, [mkEvent ids c])],
                   buffered := s.buffered + 1,
                   size := s.size + jsonLen c.data } := by
  unfold EventEmitter.emit
  rw [if_neg (not_lt.mpr hov)]
  simp [hemitted, emitLookup, mkEvent]

theorem emit_step_push (R : ℚ) (ids : ClientInfo) (T : String) (evs : List BufferedEvent)
    (s : EventEmitter) (c : EmitCall)
    (hemitted : s.emitted = [(T, evs)])
    (htopic : c.meta.topic = T)
    (hov : (s.buffered : ℚ) / R ≤ c.timeLeft)
    (hcount : evs.length + 1 ≤ 64)
    (hsize : s.size ≤ 64000) :
    EventEmitter.emit R ids s c =
      .ok { s with emitted := [(T, evs ++ [mkEvent ids c])],
                   buffered := s.buffered + 1,
                   size := s.size + jsonLen c.data } := by
  unfold EventEmitter.emit
  rw [if_neg (not_lt.mpr hov)]
  rw [hemitted, htopic]
  simp only [show emitLookup [(T, evs)] T = some evs from by simp [emitLookup]]
  rw [if_neg (by omega : ¬(64 < evs.length + 1 ∨ 64000 < s.size))]
  simp [emitUpdate, mkEvent]

theorem emit_step_flush (R : ℚ) (ids : ClientInfo) (T : String) (evs : List BufferedEvent)
    (s : EventEmitter) (c : EmitCall)
    (hemitted : s.emitted = [(T, evs)])
    (htopic : c.meta.topic = T)
    (hov : (s.buffered : ℚ) / R ≤ c.timeLeft)
    (hcount : 64 < evs.length + 1) :
    EventEmitter.emit R ids s c =
      .ok { s with emitted := [], size := jsonLen c.data, buffered := s.buffered + 1,
                   chain := s.chain ++ [[(T, evs ++ [mkEvent ids c])]],
                   flusherSet := true } := by
  unfold EventEmitter.emit
  rw [if_neg (not_lt.mpr hov)]
  rw [hemitted, htopic]
  simp only [show emitLookup [(T, evs)] T = some evs from by simp [emitLookup]]
  rw [if_pos (Or.inl hcount)]
  simp [EventEmitter.startFlush, emitUpdate, mkEvent]

theorem emit_sameTopic_prefix (R : ℚ) (ids : ClientInfo) (T : String) (f : Nat → EmitCall)
    (htopic : ∀ i : Nat, i < 65 → (f i).meta.topic = T)
    (hov : ∀ i : Nat, i < 65 → ((i : ℚ) / R ≤ (f i).timeLeft))
    (hsum : ((List.range 64).map (fun i => jsonLen (f i).data)).sum ≤ 64000) :
    ∀ k, k ≤ 64 →
      EventEmitter.emitSeq R ids emInit ((List.range k).map f) =
        .ok { emitted := if k = 0 then [] else
                [(T, (List.range k).map (fun i => mkEvent ids (f i)))],
              size := ((List.range k).map (fun i => jsonLen (f i).data)).sum,
              buffered := k,
              chain := [], delivered := [], flusherSet := false } := by
  intro k
  induction k with
  | zero =>
      intro _
      simp [EventEmitter.emitSeq, emInit]
  | succ k ih =>
      intro hk
      have hk64 : k ≤ 64 := Nat.le_of_succ_le hk
      rw [List.range_succ, List.map_append, emitSeq_append, ih hk64]
      simp only [List.map_cons, List.map_nil]
      cases k with
      | zero =>
          rw [EventEmitter.emitSeq,
            emit_step_new R ids _ (f 0) (by simp) (by simpa using hov 0 (by omega))]
          simp [EventEmitter.emitSeq, htopic 0 (by omega), List.range_succ]
      | succ n =>
          rw [EventEmitter.emitSeq,
            emit_step_push R ids T ((List.range (n + 1)).map (fun i => mkEvent ids (f i)))
              _ (f (n + 1))
              (by simp)
              (htopic (n + 1) (by omega))
              (by simpa using hov (n + 1) (by omega))
              (by simp; omega)
              (le_trans (jsonLenSum_mono f hk64) hsum)]
          simp [EventEmitter.emitSeq, List.range_succ, Nat.add_assoc]

/-- C9 (amended): from a fresh `EventEmitter`, 65 emits to the same topic
that pass the overflow check and whose first 64 serialized JSON bodies total
at most 64,000 bytes trigger the automatic flush exactly at the 65th emit
(the topic's list exceeding 64 events): the flush hands all 65 events of the
topic to the transport in one chained round, and afterwards the per-topic
buffer is empty (the 65th event's body length remains counted in `#size`,
which is incremented after the flush). -/
theorem emit_65_same_topic_flushes_one_batch (R : ℚ) (ids : ClientInfo) (T : String)
    (f : Nat → EmitCall)
    (htopic : ∀ i : Nat, i < 65 → (f i).meta.topic = T)
    (hov : ∀ i : Nat, i < 65 → ((i : ℚ) / R ≤ (f i).timeLeft))
    (hsum : ((List.range 64).map (fun i => jsonLen (f i).data)).sum ≤ 64000) :
    EventEmitter.emitSeq R ids emInit ((List.range 65).map f) =
      .ok { emitted := [],
            size := jsonLen (f 64).data,
            buffered := 65,
            chain := [[(T, (List.range 65).map (fun i => mkEvent ids (f i)))]],
            delivered := [], flusherSet := true } := by
  rw [show (65 : Nat) = 64 + 1 from rfl, List.range_succ, List.map_append, emitSeq_append,
    emit_sameTopic_prefix R ids T f htopic hov hsum 64 le_rfl]
  simp only [List.map_cons, List.map_nil]
  rw [EventEmitter.emitSeq,
    emit_step_flush R ids T ((List.range 64).map (fun i => mkEvent ids (f i)))
      _ (f 64)
      (by simp)
      (htopic 64 (by omega))
      (by simpa using hov 64 (by omega))
      (by simp)]
  simp [EventEmitter.emitSeq, List.range_succ]

/-- The emit call used in the C9 witness: topic `"t"`, no payload, ample
time remaining. -/
def c9wCall (_i : Nat) : EmitCall :=
  { timeLeft := 100, meta := { topic := "t", type := "ty", subject := "s" }, eventTime := 0 }

/-- Witness for C9: 65 payload-free emits to topic `"t"` with publish rate 1
and 100 ms remaining flush all 65 events in one round at the 65th emit,
leaving the per-topic buffer empty. -/
theorem emit_65_same_topic_flushes_one_batch_witness :
    (∀ i : Nat, i < 65 → (c9wCall i).meta.topic = "t") ∧
    (∀ i : Nat, i < 65 → ((i : ℚ) / 1 ≤ (c9wCall i).timeLeft)) ∧
    ((List.range 64).map (fun i => jsonLen (c9wCall i).data)).sum ≤ 64000 ∧
    EventEmitter.emitSeq 1 {} emInit ((List.range 65).map c9wCall) =
      .ok { emitted := [],
            size := jsonLen (c9wCall 64).data,
            buffered := 65,
            chain := [[("t", (List.range 65).map (fun i => mkEvent {} (c9wCall i)))]],
            delivered := [], flusherSet := true } :=
  ⟨by decide, by decide, by decide,
   emit_65_same_topic_flushes_one_batch 1 {} "t" c9wCall (by decide) (by decide) (by decide)⟩

/-- A 1016-character JSON body: 64 of these total 65,024 bytes, crossing the
64,000-byte size threshold before the event-count threshold is reached. -/
def medJson : String := String.mk (List.replicate 1016 'a')

/-- The emit calls of the C9 counterexample: 65 events to the same topic,
each carrying a 1016-character body, with a huge deadline and publish rate 1
(no overflow: at most 64 pending events against 10^9 ms remaining). -/
def c9cexCall (_i : Nat) : EmitCall :=
  { timeLeft := 1000000000, meta := { topic := "t", type := "ty", subject := "s" },
    eventTime := 0, data := some medJson }

/-- The counterexample run: 65 emits of `c9cexCall` on a fresh emitter. -/
def c9cexRun : Except Unit EventEmitter :=
  EventEmitter.emitSeq 1 {} emInit ((List.range 65).map c9cexCall)

/-- Counterexample to C9 as stated: under the overflow precondition alone,
65 same-topic emits need not flush at the 65th emit with all 65 events in
one batch — with 1016-byte bodies the cumulative `#size` exceeds 64,000 at
the 64th emit's check, so the flush fires there, the transport round holds
only 64 events, and one event is still buffered after the 65th emit (the
buffer is not empty). -/
theorem emit_65_size_threshold_preempts :
    c9cexRun.toOption.map
      (fun s => (s.chain.map (fun r => (r.map (fun p => p.2.length)).sum),
                 s.emitted.map (fun p => p.2.length))) = some ([64], [1]) := by
  set_option maxRecDepth 40000 in decide
